import Mathlib

/-!
# mackerel-lambda-agent: flush orchestration, start-up and the load-average generator

A shallow embedding of `cmd/app/app.go` and `cmd/metrics/loadavg.go`.

* Go maps are association lists with distinct keys, listed in the order in which
  `range` visits them. Go leaves that order unspecified, so the general statements below
  are quantified over all such lists and speak about membership and counts only.
* Metric samples are `float64` in the source. The only arithmetic the program does on
  them is `math.Max`, which never rounds, so finite samples are modelled exactly as
  rationals. NaN and signed zeros are outside the model.
* Timestamps are `int64` Unix seconds; the one addition done on them is wrapped to 64 bits.
* Calls to the monitoring backend, to the lifecycle event source and to the logger are
  recorded in a trace of effects; what the collaborators answer is supplied as data.
-/

namespace MackerelLambdaAgent

/-! ## Data model -/

/-- A `metrics.Values`: metric name to one sample, in iteration order. -/
abbrev Values := List (String × ℚ)

/-- A flushed snapshot, `map[string][]float64`: metric name to the samples of one window. -/
abbrev Samples := List (String × List ℚ)

/-- One record of a post, `mackerel.HostMetricValue` with its embedded `MetricValue`. -/
structure HostMetricValue where
  hostID : String
  name : String
  time : Int
  value : ℚ
deriving DecidableEq, Repr

/-- The argument of `FindHosts`, `mackerel.FindHostsParam` (the fields the program sets). -/
structure FindHostsParam where
  customIdentifier : String
  statuses : List String
deriving DecidableEq, Repr

/-- The argument of `CreateHost`, `mackerel.CreateHostParam` (the fields the program sets). -/
structure CreateHostParam where
  name : String
  customIdentifier : String
deriving DecidableEq, Repr

/-- A host returned by `FindHosts` (the field the program reads). -/
structure Host where
  id : String
deriving DecidableEq, Repr

/-- One metric of a graph definition, `mackerel.GraphDefsMetric`. -/
structure GraphDefsMetric where
  name : String
  displayName : String
deriving DecidableEq, Repr

/-- A graph definition, `mackerel.GraphDefsParam`. -/
structure GraphDefsParam where
  name : String
  displayName : String
  metrics : List GraphDefsMetric
deriving DecidableEq, Repr

/-- What the program does to the outside world, in the order it does it. -/
inductive Effect where
  | createGraphDefs (defs : List GraphDefsParam)
  | getCallerIdentity
  | findHosts (p : FindHostsParam)
  | createHost (p : CreateHostParam)
  | postHostMetricValues (records : List HostMetricValue)
  | register
  | initError
  | next
  | logError (msg : String)
  | logWarning (msg : String)
  | logFatal (msg : String)
  | goCollectMetrics (intervalSeconds : Nat)
  | goFlush (intervalSeconds : Nat)
  | cancel
  | exit (code : Nat)
deriving DecidableEq, Repr

/-- The answers of the monitoring backend, `*mackerel.Client`. An error is `some msg`. -/
structure MackerelClient where
  CreateGraphDefs : List GraphDefsParam → Option String
  FindHosts : FindHostsParam → List Host × Option String
  CreateHost : CreateHostParam → String × Option String
  PostHostMetricValues : List HostMetricValue → Option String

/-- Whether an effect is a post of metric values to the backend. -/
def Effect.isPost : Effect → Bool
  | .postHostMetricValues _ => true
  | _ => false

/-- The 64-bit two's complement value of an integer: the result of `int64` arithmetic. -/
def wrapInt64 (x : Int) : Int := (x + 2 ^ 63) % 2 ^ 64 - 2 ^ 63

/-- Modelled from the spec: `metrics.ValuesBucket` (its file is not among the sources):
a mapping from metric name to the samples accumulated since the last flush, and the
timestamp `lastFlushedAt`. The mutex is not modelled: each operation is one atomic step. -/
structure ValuesBucket where
  values : Samples
  lastFlushedAt : Int
deriving DecidableEq, Repr

/-- Modelled from the spec: the constructor of `metrics.ValuesBucket` (not among the
sources): a bucket is created empty and its `lastFlushedAt` is its creation time. -/
def NewValuesBucket (createdAt : Int) : ValuesBucket :=
  { values := [], lastFlushedAt := createdAt }

/-- Modelled from the spec: the step of the bucket's `insert` (not among the sources) for
one pair: the sample is appended to the sequence of its metric name. -/
def insertSample (name : String) (v : ℚ) : Samples → Samples
  | [] => [(name, [v])]
  | (k, vs) :: rest =>
    if k = name then (k, vs ++ [v]) :: rest else (k, vs) :: insertSample name v rest

/-- Modelled from the spec: the bucket's `insert(values)` (not among the sources) merges
every (name, value) pair into the per-name sample sequence, appending the new sample. -/
def ValuesBucket.insert (b : ValuesBucket) (values : Values) : ValuesBucket :=
  { b with values := values.foldl (fun m kv => insertSample kv.1 kv.2 m) b.values }

/-- Modelled from the spec: `ValuesBucket.LastFlushedAt` (not among the sources) returns
the time recorded by the most recent flush, or the creation time. -/
def ValuesBucket.LastFlushedAt (b : ValuesBucket) : Int := b.lastFlushedAt

/-- Modelled from the spec: `ValuesBucket.Flush` (not among the sources) swaps the mapping
for an empty one, returns the old mapping and records the current time (`clock`, read
inside the call) as `lastFlushedAt`. -/
def ValuesBucket.Flush (b : ValuesBucket) (clock : Int) : Samples × ValuesBucket :=
  (b.values, { values := [], lastFlushedAt := clock })

/-- The function `math.Max` of the Go library on finite samples. -/
def mathMax (x y : ℚ) : ℚ := max x y

/-- Modelled from the spec: the Reducer inside `libs.MapReduce` (not among the sources)
folds the ordered samples of one metric name with the reduction function; an empty
sequence is no observation. -/
def Reduce (fn : ℚ → ℚ → ℚ) : List ℚ → Option ℚ
  | [] => none
  | x :: xs => some (xs.foldl fn x)

/-- Modelled from the spec: `libs.MapReduce` (its file is not among the sources) applies
the Reducer per metric name and omits the names whose sequence is empty. -/
def MapReduce (m : Samples) (fn : ℚ → ℚ → ℚ) : Values :=
  m.filterMap (fun kv => (Reduce fn kv.2).map (fun v => (kv.1, v)))

/-- The receiver `*App`: the fields the flush path and `init` use. -/
structure App where
  MackerelClient : MackerelClient
  Bucket : ValuesBucket
  hostID : String

/-! ## `cmd/app/app.go`: the flush path -/

/-- The method `App.sendMetrics`: nothing is posted for an empty mapping; otherwise one
record per entry is built and the list is posted once. Returns `err` and the trace. -/
def App.sendMetrics (app : App) (now : Int) (values : Values) : Option String × List Effect :=
  if values.length = 0 then
    (none, [])
  else
    let metricValues : List HostMetricValue :=
      values.map (fun kv => { hostID := app.hostID, name := kv.1, time := now, value := kv.2 })
    (app.MackerelClient.PostHostMetricValues metricValues,
      [Effect.postHostMetricValues metricValues])

/-- The guard of `App.flushOnce`: `app.Bucket.LastFlushedAt()+60 > now` in `int64`. -/
def App.rateLimited (app : App) (now : Int) : Bool :=
  decide (wrapInt64 (app.Bucket.LastFlushedAt + 60) > now)

/-- The method `App.flushOnce`. `now` is the clock read on entry and `flushClock` the clock
read inside `Bucket.Flush`. Returns the app after the call and the trace. -/
def App.flushOnce (app : App) (now flushClock : Int) : App × List Effect :=
  if app.rateLimited now then
    (app, [])
  else
    let flushed := app.Bucket.Flush flushClock
    let app1 : App := { app with Bucket := flushed.2 }
    let values := MapReduce flushed.1 mathMax
    let sent := app1.sendMetrics now values
    match sent.1 with
    | some err => (app1, sent.2 ++ [Effect.logError err])
    | none => (app1, sent.2)

/-- What the `select` of `App.flush` receives: a tick of the flush ticker or the
cancellation of the context, with the two clock readings of the attempt it triggers. -/
inductive FlushSignal where
  | tick (now flushClock : Int)
  | done (now flushClock : Int)
deriving DecidableEq, Repr

/-- How a loop over a finite sequence of inputs ends: it returned, or it consumed them
all and is waiting for the next one. -/
inductive Outcome (σ : Type) where
  | returned (s : σ) (trace : List Effect)
  | waiting (s : σ) (trace : List Effect)

/-- The state an outcome ends in. -/
def Outcome.state {σ : Type} : Outcome σ → σ
  | .returned s _ => s
  | .waiting s _ => s

/-- The trace of an outcome. -/
def Outcome.trace {σ : Type} : Outcome σ → List Effect
  | .returned _ t => t
  | .waiting _ t => t

/-- Whether the loop returned. -/
def Outcome.isReturned {σ : Type} : Outcome σ → Bool
  | .returned _ _ => true
  | .waiting _ _ => false

/-- Prepends the trace of the steps already done to an outcome. -/
def Outcome.after {σ : Type} (pre : List Effect) : Outcome σ → Outcome σ
  | .returned s t => .returned s (pre ++ t)
  | .waiting s t => .waiting s (pre ++ t)

/-- The method `App.flush` over the signals its `select` receives: a flush attempt on
every tick, and one more on cancellation, after which the loop returns. The ticker's
interval only decides when the ticks come. -/
def App.flush : List FlushSignal → App → Outcome App
  | [], app => .waiting app []
  | .tick now flushClock :: rest, app =>
    let r := app.flushOnce now flushClock
    (App.flush rest r.1).after r.2
  | .done now flushClock :: _, app =>
    let r := app.flushOnce now flushClock
    .returned r.1 r.2

/-! ## `cmd/app/app.go`: the lifecycle loop -/

/-- What `ExtensionsClient.Next()` returns: an error, or an event with its type. -/
inductive NextResult where
  | error (err : String)
  | event (eventType : String)
deriving DecidableEq, Repr

/-- One result of `Next()` together with the two clock readings that a flush attempt
triggered by it would make. -/
structure NextStep where
  result : NextResult
  now : Int
  flushClock : Int
deriving DecidableEq, Repr

/-- The method `App.loop` over the results that `Next()` delivers. The other goroutines
are not interleaved: the app changes only by the loop's own calls. -/
def App.loop : List NextStep → App → Outcome App
  | [], app => .waiting app [Effect.next]
  | s :: rest, app =>
    match s.result with
    | .error _ => (App.loop rest app).after [Effect.next]
    | .event eventType =>
      if eventType = "INVOKE" then
        let r := app.flushOnce s.now s.flushClock
        (App.loop rest r.1).after (Effect.next :: r.2)
      else if eventType = "SHUTDOWN" then
        .returned app [Effect.next]
      else
        (App.loop rest app).after [Effect.next, Effect.logWarning "Unknown event type"]

/-! ## `cmd/metrics/loadavg.go` -/

/-- The sample of `loadavg.Get()`, `loadavg.Stats`. -/
structure LoadavgStats where
  Loadavg1 : ℚ
  Loadavg5 : ℚ
  Loadavg15 : ℚ
deriving DecidableEq, Repr

/-- The method `LoadavgGenerator.Generate`, given what `loadavg.Get()` returned: the pair
(mapping, error) of the source, `none` standing for `nil`. -/
def LoadavgGenerator.Generate (get : Except String LoadavgStats) :
    Option Values × Option String :=
  match get with
  | .error err => (none, some err)
  | .ok loadavg =>
    (some [("custom.aws.lambda.extensions.loadavg.loadavg1", loadavg.Loadavg1),
           ("custom.aws.lambda.extensions.loadavg.loadavg5", loadavg.Loadavg5),
           ("custom.aws.lambda.extensions.loadavg.loadavg15", loadavg.Loadavg15)], none)

/-- The variable `LoadavgGraphDefs`. -/
def LoadavgGraphDefs : GraphDefsParam :=
  { name := "custom.aws.lambda.extensions.loadavg"
    displayName := "Loadavg"
    metrics := [
      { name := "custom.aws.lambda.extensions.loadavg.loadavg1", displayName := "Loadavg1" },
      { name := "custom.aws.lambda.extensions.loadavg.loadavg5", displayName := "Loadavg5" },
      { name := "custom.aws.lambda.extensions.loadavg.loadavg15", displayName := "Loadavg15" }] }

/-- Whether `s` starts with `p`, character by character. -/
def startsWith (p s : String) : Bool := p.data.isPrefixOf s.data

/-! ## `cmd/app/app.go`: start-up -/

/-- What `App.init` reads from outside the backend: the three graph definitions whose
files are not among the sources, the result of `getAccountID()`, and the two environment
variables. -/
structure InitEnv where
  CPUGraphDefs : GraphDefsParam
  MemoryGraphDefs : GraphDefsParam
  NetworkGraphDefs : GraphDefsParam
  accountID : Except String String
  region : String
  functionName : String

/-- The custom identifier of `App.init`:
`fmt.Sprintf("arn:aws:lambda:%s:%s:function:%s", region, accountID, functionName)`. -/
def functionArn (region accountID functionName : String) : String :=
  "arn:aws:lambda:" ++ region ++ ":" ++ accountID ++ ":function:" ++ functionName

/-- The method `App.init`. Returns the app after the call, `err`, and the trace. -/
def App.init (app : App) (env : InitEnv) : App × Option String × List Effect :=
  let defs := [env.CPUGraphDefs, LoadavgGraphDefs, env.MemoryGraphDefs, env.NetworkGraphDefs]
  let t1 := [Effect.createGraphDefs defs]
  match app.MackerelClient.CreateGraphDefs defs with
  | some err => (app, some err, t1)
  | none =>
    let t2 := t1 ++ [Effect.getCallerIdentity]
    match env.accountID with
    | .error err => (app, some err, t2)
    | .ok accountID =>
      let arn := functionArn env.region accountID env.functionName
      let findParam : FindHostsParam :=
        { customIdentifier := arn
          statuses := ["working", "standby", "maintenance", "poweroff"] }
      let t3 := t2 ++ [Effect.findHosts findParam]
      let found := app.MackerelClient.FindHosts findParam
      match found.2 with
      | some err => (app, some err, t3)
      | none =>
        let hosts := found.1
        if hosts.length > 1 then
          (app, some "Custom identifier duplicated", t3)
        else
          match hosts with
          | [] =>
            let createParam : CreateHostParam :=
              { name := env.functionName, customIdentifier := arn }
            let created := app.MackerelClient.CreateHost createParam
            ({ app with hostID := created.1 }, created.2, t3 ++ [Effect.createHost createParam])
          | h :: _ => ({ app with hostID := h.id }, none, t3)

/-- The method `App.Run`, given what `Register()` answered (`some err` for a failure),
the inputs of `init` and the results `Next()` delivers. `log.Fatal` ends the process. The
two goroutines are recorded when they are started; their own steps are not interleaved. -/
def App.Run (app : App) (registerErr : Option String) (env : InitEnv)
    (steps : List NextStep) : Outcome App :=
  match registerErr with
  | some _ => .returned app [Effect.register, Effect.logFatal "Failed to register"]
  | none =>
    let r := app.init env
    match r.2.1 with
    | some _ =>
      .returned r.1
        ([Effect.register] ++ r.2.2 ++ [Effect.initError, Effect.logFatal "Failed to initialize"])
    | none =>
      let started :=
        [Effect.register] ++ r.2.2 ++ [Effect.goCollectMetrics 1, Effect.goFlush 60]
      match r.1.loop steps with
      | .waiting a t => .waiting a (started ++ t)
      | .returned a t => .returned a (started ++ t ++ [Effect.cancel, Effect.exit 0])

/-! ## Specification-side helpers and sample data -/

/-- The log entry `flushOnce` writes for the error `sendMetrics` returned, if any. -/
def errorLog : Option String → List Effect
  | some err => [Effect.logError err]
  | none => []

/-- A sequence of inserts, one after the other. -/
def ValuesBucket.insertAll (b : ValuesBucket) (inserts : List Values) : ValuesBucket :=
  inserts.foldl ValuesBucket.insert b

/-- A backend that accepts every call; a created host gets the ID `h1`. -/
def okClient : MackerelClient :=
  { CreateGraphDefs := fun _ => none
    FindHosts := fun _ => ([], none)
    CreateHost := fun _ => ("h1", none)
    PostHostMetricValues := fun _ => none }

/-- A backend whose posts fail. -/
def failingClient : MackerelClient :=
  { okClient with PostHostMetricValues := fun _ => some "post failed" }

/-- An app whose last flush was at time 100 and whose bucket holds one sample since. -/
def sampleApp : App :=
  { MackerelClient := okClient
    Bucket := { values := [("x", [5])], lastFlushedAt := 100 }
    hostID := "h1" }

/-- The same app in front of a backend whose posts fail. -/
def failingApp : App := { sampleApp with MackerelClient := failingClient }

/-- The app of the end-to-end scenario: host `h1` and a bucket created at time 0 into which
a sampling tick inserted cpu = 10 and the next one cpu = 20. -/
def cpuApp : App :=
  { MackerelClient := okClient
    Bucket := ((NewValuesBucket 0).insert [("cpu", 10)]).insert [("cpu", 20)]
    hostID := "h1" }

/-- An app whose bucket received the samples 3, 7 and 2 for the metric `x`. -/
def peakApp : App :=
  { MackerelClient := okClient
    Bucket := (NewValuesBucket 0).insertAll [[("x", 3)], [("x", 7)], [("x", 2)]]
    hostID := "h1" }

/-- Whether a result of `Next()` is an event of the given type. -/
def NextStep.isEvent (s : NextStep) (eventType : String) : Bool :=
  decide (s.result = NextResult.event eventType)

/-- Whether a result of `Next()` is an event that is neither INVOKE nor SHUTDOWN. -/
def NextStep.isUnknownEvent (s : NextStep) : Bool :=
  match s.result with
  | .error _ => false
  | .event eventType => decide (eventType ≠ "INVOKE" ∧ eventType ≠ "SHUTDOWN")

/-- Whether an effect is one a flush attempt can have: a post or the log of its error. -/
def Effect.isFlushEffect : Effect → Bool
  | .postHostMetricValues _ => true
  | .logError _ => true
  | _ => false

/-- One `flushOnce` for each of the given steps, in order, with that step's clock
readings: the app at the end and the trace of the attempts. -/
def flushAttempts : List NextStep → App → App × List Effect
  | [], app => (app, [])
  | s :: rest, app =>
    let r := app.flushOnce s.now s.flushClock
    let r1 := flushAttempts rest r.1
    (r1.1, r.2 ++ r1.2)

/-- Whether an effect belongs to the running state: the start of the sampling loop or of
the flush loop, or a call of `Next()` by the lifecycle loop. -/
def Effect.startsRunning : Effect → Bool
  | .goCollectMetrics _ => true
  | .goFlush _ => true
  | .next => true
  | _ => false

/-- The graph definitions `init` declares. -/
def InitEnv.graphDefs (env : InitEnv) : List GraphDefsParam :=
  [env.CPUGraphDefs, LoadavgGraphDefs, env.MemoryGraphDefs, env.NetworkGraphDefs]

/-- The lookup `init` makes for the account `accountID`. -/
def InitEnv.findParam (env : InitEnv) (accountID : String) : FindHostsParam :=
  { customIdentifier := functionArn env.region accountID env.functionName
    statuses := ["working", "standby", "maintenance", "poweroff"] }

/-- The host `init` creates for the account `accountID` when the lookup finds none. -/
def InitEnv.createParam (env : InitEnv) (accountID : String) : CreateHostParam :=
  { name := env.functionName
    customIdentifier := functionArn env.region accountID env.functionName }

/-- The trace of `init` up to and including the host lookup. -/
def InitEnv.lookupTrace (env : InitEnv) (accountID : String) : List Effect :=
  [Effect.createGraphDefs env.graphDefs, Effect.getCallerIdentity,
    Effect.findHosts (env.findParam accountID)]

/-- Whether `init` meets one of its failures: the declaration of the graph definitions
fails, the account lookup fails, the host lookup fails, the host lookup finds more than one
host, or it finds none and the creation of the host fails. -/
def initFails (app : App) (env : InitEnv) : Bool :=
  (app.MackerelClient.CreateGraphDefs env.graphDefs).isSome ||
  match env.accountID with
  | .error _ => true
  | .ok accountID =>
    (app.MackerelClient.FindHosts (env.findParam accountID)).2.isSome ||
    decide ((app.MackerelClient.FindHosts (env.findParam accountID)).1.length > 1) ||
    ((app.MackerelClient.FindHosts (env.findParam accountID)).1.isEmpty &&
      (app.MackerelClient.CreateHost (env.createParam accountID)).2.isSome)

/-- An environment for `init`: the account 123456789012, the region us-east-1 and the
function `fn`; the three graph definitions stand for the ones declared elsewhere. -/
def sampleEnv : InitEnv :=
  { CPUGraphDefs :=
      { name := "custom.aws.lambda.extensions.cpu", displayName := "CPU", metrics := [] }
    MemoryGraphDefs :=
      { name := "custom.aws.lambda.extensions.memory", displayName := "Memory", metrics := [] }
    NetworkGraphDefs :=
      { name := "custom.aws.lambda.extensions.network", displayName := "Network", metrics := [] }
    accountID := Except.ok "123456789012"
    region := "us-east-1"
    functionName := "fn" }

/-- A sequence of results of `Next()`: an error, an INVOKE, an unknown event, the SHUTDOWN,
and an INVOKE that comes too late. -/
def sampleSteps : List NextStep :=
  [{ result := NextResult.error "timeout", now := 110, flushClock := 110 },
   { result := NextResult.event "INVOKE", now := 170, flushClock := 171 },
   { result := NextResult.event "PING", now := 180, flushClock := 180 },
   { result := NextResult.event "SHUTDOWN", now := 190, flushClock := 190 },
   { result := NextResult.event "INVOKE", now := 300, flushClock := 300 }]

/-- A backend whose host lookup finds two hosts. -/
def duplicateClient : MackerelClient :=
  { okClient with FindHosts := fun _ => ([{ id := "h1" }, { id := "h2" }], none) }

/-- A backend whose host lookup finds the one host `h7`. -/
def knownHostClient : MackerelClient :=
  { okClient with FindHosts := fun _ => ([{ id := "h7" }], none) }

/-- An app that has not been initialised: empty bucket created at time 0, no host ID. -/
def freshApp (client : MackerelClient) : App :=
  { MackerelClient := client, Bucket := NewValuesBucket 0, hostID := "" }

/-- Two snapshots with the same metric names in the same places, the samples of each name
being the same up to their order. -/
def SameUpToSampleOrder (m m' : Samples) : Prop :=
  List.Forall₂ (fun a b => a.1 = b.1 ∧ a.2.Perm b.2) m m'

/-! ## Lemmas on the bucket, the reducer and the flush path -/

section Lemmas

lemma wrapInt64_of_inRange (x : Int) (hlo : -2 ^ 63 ≤ x) (hhi : x < 2 ^ 63) :
    wrapInt64 x = x := by
  unfold wrapInt64
  have h : (x + 2 ^ 63) % 2 ^ 64 = x + 2 ^ 63 :=
    Int.emod_eq_of_lt (by omega) (by omega)
  omega

lemma rateLimited_eq_true_iff (app : App) (now : Int)
    (hlo : -2 ^ 63 ≤ app.Bucket.LastFlushedAt)
    (hhi : app.Bucket.LastFlushedAt + 60 < 2 ^ 63) :
    app.rateLimited now = true ↔ now - app.Bucket.LastFlushedAt < 60 := by
  unfold App.rateLimited
  rw [wrapInt64_of_inRange _ (by omega) hhi]
  simp only [decide_eq_true_eq]
  omega

lemma rateLimited_eq_false_iff (app : App) (now : Int)
    (hlo : -2 ^ 63 ≤ app.Bucket.LastFlushedAt)
    (hhi : app.Bucket.LastFlushedAt + 60 < 2 ^ 63) :
    app.rateLimited now = false ↔ 60 ≤ now - app.Bucket.LastFlushedAt := by
  rw [← Bool.not_eq_true, rateLimited_eq_true_iff app now hlo hhi]
  omega

lemma flushOnce_of_rateLimited (app : App) (now flushClock : Int)
    (h : app.rateLimited now = true) : app.flushOnce now flushClock = (app, []) := by
  simp [App.flushOnce, h]

lemma sendMetrics_congr (app app1 : App) (now : Int) (values : Values)
    (hc : app1.MackerelClient = app.MackerelClient) (hh : app1.hostID = app.hostID) :
    app1.sendMetrics now values = app.sendMetrics now values := by
  simp [App.sendMetrics, hc, hh]

lemma flushOnce_of_pass (app : App) (now flushClock : Int)
    (h : app.rateLimited now = false) :
    app.flushOnce now flushClock =
      ({ app with Bucket := { values := [], lastFlushedAt := flushClock } },
        (app.sendMetrics now (MapReduce app.Bucket.values mathMax)).2 ++
          errorLog (app.sendMetrics now (MapReduce app.Bucket.values mathMax)).1) := by
  have hs : ({ app with Bucket := { values := [], lastFlushedAt := flushClock } } : App).sendMetrics
      now (MapReduce app.Bucket.values mathMax)
      = app.sendMetrics now (MapReduce app.Bucket.values mathMax) :=
    sendMetrics_congr _ _ _ _ rfl rfl
  simp only [App.flushOnce, h, ValuesBucket.Flush, Bool.false_eq_true, if_false, hs]
  cases (app.sendMetrics now (MapReduce app.Bucket.values mathMax)).1 <;> simp [errorLog]

lemma flushOnce_bucket_of_pass (app : App) (now flushClock : Int)
    (h : app.rateLimited now = false) :
    (app.flushOnce now flushClock).1.Bucket = { values := [], lastFlushedAt := flushClock } := by
  rw [flushOnce_of_pass app now flushClock h]

lemma foldl_mathMax_ge_init (xs : List ℚ) (a : ℚ) : a ≤ xs.foldl mathMax a := by
  induction xs generalizing a with
  | nil => exact le_refl a
  | cons x xs ih => exact le_trans (le_max_left a x) (ih (mathMax a x))

lemma foldl_mathMax_ge_mem (xs : List ℚ) (a s : ℚ) (hs : s ∈ xs) :
    s ≤ xs.foldl mathMax a := by
  induction xs generalizing a with
  | nil => cases hs
  | cons x xs ih =>
    rcases List.mem_cons.mp hs with rfl | h
    · exact le_trans (le_max_right a s) (foldl_mathMax_ge_init xs (mathMax a s))
    · exact ih (mathMax a x) h

lemma foldl_mathMax_mem (xs : List ℚ) (a : ℚ) : xs.foldl mathMax a ∈ a :: xs := by
  induction xs generalizing a with
  | nil => simp
  | cons x xs ih =>
    have h := ih (mathMax a x)
    rw [List.foldl_cons]
    rcases List.mem_cons.mp h with h1 | h1
    · rw [h1]
      rcases max_choice a x with hc | hc
      · have : mathMax a x = a := hc
        rw [this]
        exact List.mem_cons_self _ _
      · have : mathMax a x = x := hc
        rw [this]
        exact List.mem_cons_of_mem _ (List.mem_cons_self _ _)
    · exact List.mem_cons_of_mem _ (List.mem_cons_of_mem _ h1)

lemma Reduce_mathMax_spec (samples : List ℚ) (v : ℚ) (h : Reduce mathMax samples = some v) :
    v ∈ samples ∧ ∀ s ∈ samples, s ≤ v := by
  cases samples with
  | nil => simp [Reduce] at h
  | cons x xs =>
    simp only [Reduce, Option.some.injEq] at h
    subst h
    refine ⟨foldl_mathMax_mem xs x, fun s hs => ?_⟩
    rcases List.mem_cons.mp hs with rfl | hmem
    · exact foldl_mathMax_ge_init xs s
    · exact foldl_mathMax_ge_mem xs x s hmem

lemma Reduce_isSome_of_ne_nil (fn : ℚ → ℚ → ℚ) (samples : List ℚ) (h : samples ≠ []) :
    ∃ v, Reduce fn samples = some v := by
  cases samples with
  | nil => exact absurd rfl h
  | cons x xs => exact ⟨_, rfl⟩

lemma Reduce_mathMax_perm (xs ys : List ℚ) (h : xs.Perm ys) :
    Reduce mathMax xs = Reduce mathMax ys := by
  cases hx : Reduce mathMax xs with
  | none =>
    cases xs with
    | nil => rw [List.nil_perm.mp h]; rfl
    | cons a l => simp [Reduce] at hx
  | some v =>
    have hne : ys ≠ [] := by
      rintro rfl
      rw [List.perm_nil.mp h] at hx
      simp [Reduce] at hx
    obtain ⟨w, hw⟩ := Reduce_isSome_of_ne_nil mathMax ys hne
    obtain ⟨hv1, hv2⟩ := Reduce_mathMax_spec xs v hx
    obtain ⟨hw1, hw2⟩ := Reduce_mathMax_spec ys w hw
    have h1 : v ≤ w := hw2 v (h.subset hv1)
    have h2 : w ≤ v := hv2 w (h.symm.subset hw1)
    rw [hw, le_antisymm h1 h2]

lemma mem_MapReduce (m : Samples) (fn : ℚ → ℚ → ℚ) (name : String) (v : ℚ) :
    (name, v) ∈ MapReduce m fn ↔ ∃ samples, (name, samples) ∈ m ∧ Reduce fn samples = some v := by
  simp only [MapReduce, List.mem_filterMap, Option.map_eq_some', Prod.mk.injEq, Prod.exists]
  constructor
  · rintro ⟨k, samples, hmem, w, hw, rfl, rfl⟩
    exact ⟨samples, hmem, hw⟩
  · rintro ⟨samples, hmem, hw⟩
    exact ⟨name, samples, hmem, v, hw, rfl, rfl⟩

lemma MapReduce_keys_sublist (m : Samples) (fn : ℚ → ℚ → ℚ) :
    ((MapReduce m fn).map Prod.fst).Sublist (m.map Prod.fst) := by
  induction m with
  | nil => exact List.Sublist.slnil
  | cons kv rest ih =>
    cases hr : Reduce fn kv.2 with
    | none =>
      have : MapReduce (kv :: rest) fn = MapReduce rest fn := by
        simp [MapReduce, List.filterMap_cons, hr]
      rw [this]
      exact List.Sublist.cons _ ih
    | some v =>
      have : MapReduce (kv :: rest) fn = (kv.1, v) :: MapReduce rest fn := by
        simp [MapReduce, List.filterMap_cons, hr]
      rw [this]
      exact List.Sublist.cons₂ _ ih

lemma post_mem_flushOnce (app : App) (now flushClock : Int)
    (hpass : app.rateLimited now = false) (records : List HostMetricValue)
    (h : Effect.postHostMetricValues records ∈ (app.flushOnce now flushClock).2) :
    records = (MapReduce app.Bucket.values mathMax).map (fun kv =>
      ({ hostID := app.hostID, name := kv.1, time := now, value := kv.2 } : HostMetricValue)) := by
  rw [flushOnce_of_pass app now flushClock hpass] at h
  simp only [App.sendMetrics] at h
  split at h
  · simp [errorLog] at h
  · cases hp : app.MackerelClient.PostHostMetricValues
        ((MapReduce app.Bucket.values mathMax).map (fun kv =>
          ({ hostID := app.hostID, name := kv.1, time := now, value := kv.2 } :
            HostMetricValue))) <;>
      simpa [errorLog, hp] using h

lemma MapReduce_mathMax_sampleOrder (m m' : Samples) (h : SameUpToSampleOrder m m') :
    MapReduce m mathMax = MapReduce m' mathMax := by
  unfold SameUpToSampleOrder at h
  induction h with
  | nil => rfl
  | @cons a b l l' hab _ ih =>
    have hr : Reduce mathMax a.2 = Reduce mathMax b.2 := Reduce_mathMax_perm _ _ hab.2
    have e1 : MapReduce (a :: l) mathMax =
        ((Reduce mathMax a.2).map (fun v => (a.1, v))).toList ++ MapReduce l mathMax := by
      cases hx : Reduce mathMax a.2 <;> simp [MapReduce, List.filterMap_cons, hx]
    have e2 : MapReduce (b :: l') mathMax =
        ((Reduce mathMax b.2).map (fun v => (b.1, v))).toList ++ MapReduce l' mathMax := by
      cases hx : Reduce mathMax b.2 <;> simp [MapReduce, List.filterMap_cons, hx]
    rw [e1, e2, ih, hr, hab.1]

lemma flushOnce_trace_isFlushEffect (app : App) (now flushClock : Int) :
    ∀ e ∈ (app.flushOnce now flushClock).2, e.isFlushEffect = true := by
  intro e he
  cases h : app.rateLimited now
  · rw [flushOnce_of_pass app now flushClock h] at he
    simp only [App.sendMetrics] at he
    split at he
    · simp [errorLog] at he
    · cases hp : app.MackerelClient.PostHostMetricValues
          ((MapReduce app.Bucket.values mathMax).map (fun kv =>
            ({ hostID := app.hostID, name := kv.1, time := now, value := kv.2 } :
              HostMetricValue))) <;>
        simp only [errorLog, hp, List.append_nil, List.mem_singleton, List.singleton_append,
          List.mem_cons, List.not_mem_nil, or_false] at he
      · rw [he]; rfl
      · rcases he with he | he <;> rw [he] <;> rfl
  · rw [flushOnce_of_rateLimited app now flushClock h] at he
    cases he

lemma filter_isFlushEffect_flushOnce (app : App) (now flushClock : Int) :
    (app.flushOnce now flushClock).2.filter Effect.isFlushEffect =
      (app.flushOnce now flushClock).2 :=
  List.filter_eq_self.mpr (flushOnce_trace_isFlushEffect app now flushClock)

lemma count_eq_zero_flushOnce (app : App) (now flushClock : Int) (e : Effect)
    (he : e.isFlushEffect = false) : (app.flushOnce now flushClock).2.count e = 0 := by
  apply List.count_eq_zero.mpr
  intro hmem
  have := flushOnce_trace_isFlushEffect app now flushClock e hmem
  rw [he] at this
  cases this

lemma loop_until_shutdown (pre post : List NextStep) (s : NextStep)
    (hs : s.result = NextResult.event "SHUTDOWN")
    (hpre : ∀ p ∈ pre, p.result ≠ NextResult.event "SHUTDOWN") (app : App) :
    ∃ trace,
      app.loop (pre ++ s :: post) =
        Outcome.returned (flushAttempts (pre.filter (fun p => p.isEvent "INVOKE")) app).1 trace ∧
      trace.filter Effect.isFlushEffect =
        (flushAttempts (pre.filter (fun p => p.isEvent "INVOKE")) app).2 ∧
      trace.count Effect.next = pre.length + 1 ∧
      trace.count (Effect.logWarning "Unknown event type") =
        (pre.filter NextStep.isUnknownEvent).length := by
  induction pre generalizing app with
  | nil =>
    refine ⟨[Effect.next], ?_, ?_, ?_, ?_⟩
    · simp [App.loop, hs, flushAttempts]
    · simp [flushAttempts, Effect.isFlushEffect]
    · simp
    · simp
  | cons p pre ih =>
    have hp : p.result ≠ NextResult.event "SHUTDOWN" := hpre p (List.mem_cons_self _ _)
    have hpre1 : ∀ q ∈ pre, q.result ≠ NextResult.event "SHUTDOWN" :=
      fun q hq => hpre q (List.mem_cons_of_mem _ hq)
    cases hres : p.result with
    | error err =>
      obtain ⟨t, h1, h2, h3, h4⟩ := ih hpre1 app
      refine ⟨Effect.next :: t, ?_, ?_, ?_, ?_⟩
      · simp [App.loop, hres, h1, Outcome.after, NextStep.isEvent]
      · simp [h2, NextStep.isEvent, hres, Effect.isFlushEffect]
      · simp [h3]
      · simp [h4, NextStep.isUnknownEvent, hres]
    | event eventType =>
      by_cases hinv : eventType = "INVOKE"
      · subst hinv
        obtain ⟨t, h1, h2, h3, h4⟩ := ih hpre1 (app.flushOnce p.now p.flushClock).1
        refine ⟨Effect.next :: ((app.flushOnce p.now p.flushClock).2 ++ t), ?_, ?_, ?_, ?_⟩
        · simp [App.loop, hres, h1, Outcome.after, NextStep.isEvent, flushAttempts]
        · simp [h2, NextStep.isEvent, hres, Effect.isFlushEffect, flushAttempts,
            filter_isFlushEffect_flushOnce]
        · simp [h3, count_eq_zero_flushOnce app p.now p.flushClock Effect.next rfl]
        · simp [h4, NextStep.isUnknownEvent, hres,
            count_eq_zero_flushOnce app p.now p.flushClock (Effect.logWarning _) rfl]
      · have hshut : eventType ≠ "SHUTDOWN" := by
          intro h
          exact hp (by rw [hres, h])
        obtain ⟨t, h1, h2, h3, h4⟩ := ih hpre1 app
        refine ⟨Effect.next :: Effect.logWarning "Unknown event type" :: t, ?_, ?_, ?_, ?_⟩
        · simp [App.loop, hres, h1, Outcome.after, NextStep.isEvent, hinv, hshut]
        · simp [h2, NextStep.isEvent, hres, Effect.isFlushEffect, hinv]
        · simp [h3]
        · simp [h4, NextStep.isUnknownEvent, hres, hinv, hshut]

lemma loop_waits_without_shutdown (steps : List NextStep)
    (h : ∀ p ∈ steps, p.result ≠ NextResult.event "SHUTDOWN") (app : App) :
    (app.loop steps).isReturned = false := by
  induction steps generalizing app with
  | nil => rfl
  | cons p rest ih =>
    have hp : p.result ≠ NextResult.event "SHUTDOWN" := h p (List.mem_cons_self _ _)
    have hrest : ∀ q ∈ rest, q.result ≠ NextResult.event "SHUTDOWN" :=
      fun q hq => h q (List.mem_cons_of_mem _ hq)
    have hafter : ∀ (o : Outcome App) (t : List Effect),
        (o.after t).isReturned = o.isReturned := by
      intro o t
      cases o <;> rfl
    cases hres : p.result with
    | error err => simp [App.loop, hres, hafter, ih hrest]
    | event eventType =>
      by_cases hinv : eventType = "INVOKE"
      · simp [App.loop, hres, hinv, hafter, ih hrest]
      · have hshut : eventType ≠ "SHUTDOWN" := by
          intro h1
          exact hp (by rw [hres, h1])
        simp [App.loop, hres, hinv, hshut, hafter, ih hrest]

lemma init_of_graphDefs_error (app : App) (env : InitEnv) (err : String)
    (hdefs : app.MackerelClient.CreateGraphDefs env.graphDefs = some err) :
    app.init env = (app, some err, [Effect.createGraphDefs env.graphDefs]) := by
  simp only [InitEnv.graphDefs] at hdefs
  simp only [App.init, hdefs, InitEnv.graphDefs]

lemma init_of_account_error (app : App) (env : InitEnv) (err : String)
    (hdefs : app.MackerelClient.CreateGraphDefs env.graphDefs = none)
    (hacc : env.accountID = Except.error err) :
    app.init env =
      (app, some err, [Effect.createGraphDefs env.graphDefs, Effect.getCallerIdentity]) := by
  simp only [InitEnv.graphDefs] at hdefs
  simp [App.init, hdefs, hacc, InitEnv.graphDefs]

lemma init_of_account (app : App) (env : InitEnv) (accountID : String)
    (hdefs : app.MackerelClient.CreateGraphDefs env.graphDefs = none)
    (hacc : env.accountID = Except.ok accountID) :
    app.init env =
      match (app.MackerelClient.FindHosts (env.findParam accountID)).2 with
      | some err => (app, some err, env.lookupTrace accountID)
      | none =>
        match (app.MackerelClient.FindHosts (env.findParam accountID)).1 with
        | [] =>
          ({ app with hostID := (app.MackerelClient.CreateHost (env.createParam accountID)).1 },
            (app.MackerelClient.CreateHost (env.createParam accountID)).2,
            env.lookupTrace accountID ++ [Effect.createHost (env.createParam accountID)])
        | [h] => ({ app with hostID := h.id }, none, env.lookupTrace accountID)
        | _ :: _ :: _ => (app, some "Custom identifier duplicated", env.lookupTrace accountID) := by
  simp only [InitEnv.graphDefs] at hdefs
  simp only [App.init, hdefs, hacc, InitEnv.graphDefs, InitEnv.findParam, InitEnv.createParam,
    InitEnv.lookupTrace]
  cases h2 : (app.MackerelClient.FindHosts
      { customIdentifier := functionArn env.region accountID env.functionName,
        statuses := ["working", "standby", "maintenance", "poweroff"] }).2 with
  | some err => simp
  | none =>
    simp only
    cases h1 : (app.MackerelClient.FindHosts
      { customIdentifier := functionArn env.region accountID env.functionName,
        statuses := ["working", "standby", "maintenance", "poweroff"] }).1 with
    | nil => simp
    | cons h rest =>
      cases rest with
      | nil => simp
      | cons h' rest' => simp

lemma init_err_isSome (app : App) (env : InitEnv) :
    (app.init env).2.1.isSome = initFails app env := by
  unfold initFails
  cases hdefs : app.MackerelClient.CreateGraphDefs env.graphDefs with
  | some e => rw [init_of_graphDefs_error app env e hdefs]; simp
  | none =>
    cases hacc : env.accountID with
    | error e => rw [init_of_account_error app env e hdefs hacc]; simp
    | ok accountID =>
      rw [init_of_account app env accountID hdefs hacc]
      cases h2 : (app.MackerelClient.FindHosts (env.findParam accountID)).2 with
      | some e => simp [h2]
      | none =>
        cases h1 : (app.MackerelClient.FindHosts (env.findParam accountID)).1 with
        | nil => simp [h1, h2]
        | cons h rest =>
          cases rest with
          | nil => simp [h1, h2]
          | cons h' rest' => simp [h1, h2]

lemma init_trace_not_running (app : App) (env : InitEnv) :
    ∀ e ∈ (app.init env).2.2, e.startsRunning = false ∧ e ≠ Effect.initError := by
  cases hdefs : app.MackerelClient.CreateGraphDefs env.graphDefs with
  | some e => rw [init_of_graphDefs_error app env e hdefs]; simp [Effect.startsRunning]
  | none =>
    cases hacc : env.accountID with
    | error e => rw [init_of_account_error app env e hdefs hacc]; simp [Effect.startsRunning]
    | ok accountID =>
      rw [init_of_account app env accountID hdefs hacc]
      cases h2 : (app.MackerelClient.FindHosts (env.findParam accountID)).2 with
      | some e => simp [InitEnv.lookupTrace, Effect.startsRunning]
      | none =>
        cases h1 : (app.MackerelClient.FindHosts (env.findParam accountID)).1 with
        | nil => simp [InitEnv.lookupTrace, Effect.startsRunning]
        | cons h rest =>
          cases rest with
          | nil => simp [InitEnv.lookupTrace, Effect.startsRunning]
          | cons h' rest' => simp [InitEnv.lookupTrace, Effect.startsRunning]

lemma Run_of_init_error (app : App) (env : InitEnv) (steps : List NextStep) (err : String)
    (h : (app.init env).2.1 = some err) :
    app.Run none env steps =
      Outcome.returned (app.init env).1
        ([Effect.register] ++ (app.init env).2.2 ++
          [Effect.initError, Effect.logFatal "Failed to initialize"]) := by
  simp only [App.Run, h]

lemma Run_of_init_ok (app : App) (env : InitEnv) (steps : List NextStep)
    (h : (app.init env).2.1 = none) :
    ∃ rest, (app.Run none env steps).trace =
      [Effect.register] ++ (app.init env).2.2 ++
        Effect.goCollectMetrics 1 :: Effect.goFlush 60 :: rest := by
  simp only [App.Run, h]
  cases (app.init env).1.loop steps with
  | returned a t => exact ⟨t ++ [Effect.cancel, Effect.exit 0], by simp [Outcome.trace]⟩
  | waiting a t => exact ⟨t, by simp [Outcome.trace]⟩

end Lemmas

/-! ## The flush path: rate limiting, shutdown, post failures, empty windows -/

/-- C2: for a bucket whose `lastFlushedAt` is a timestamp that leaves room for the
addition of 60 in `int64`, and every clock reading `now`: when `now - lastFlushedAt >= 60`
`flushOnce` flushes the bucket (it is emptied and its window advanced to the flush time),
and when `now - lastFlushedAt < 60` it is a no-op: the app is unchanged and nothing is
posted. So an attempt 10 seconds after a flush does nothing and one 70 seconds after a
flush flushes again. -/
theorem flushOnce_rate_limit (app : App) (now flushClock : Int)
    (hlo : -2 ^ 63 ≤ app.Bucket.LastFlushedAt)
    (hhi : app.Bucket.LastFlushedAt + 60 < 2 ^ 63) :
    (60 ≤ now - app.Bucket.LastFlushedAt →
      (app.flushOnce now flushClock).1.Bucket = (app.Bucket.Flush flushClock).2 ∧
      (app.flushOnce now flushClock).2 =
        (app.sendMetrics now (MapReduce (app.Bucket.Flush flushClock).1 mathMax)).2 ++
          errorLog (app.sendMetrics now (MapReduce (app.Bucket.Flush flushClock).1 mathMax)).1) ∧
    (now - app.Bucket.LastFlushedAt < 60 → app.flushOnce now flushClock = (app, [])) ∧
    app.flushOnce (app.Bucket.LastFlushedAt + 10) flushClock = (app, []) ∧
    (app.flushOnce (app.Bucket.LastFlushedAt + 70) flushClock).1.Bucket =
      { values := [], lastFlushedAt := flushClock } := by
  refine ⟨fun h => ?_, fun h => ?_, ?_, ?_⟩
  · have hp := (rateLimited_eq_false_iff app now hlo hhi).2 h
    rw [flushOnce_of_pass app now flushClock hp]
    exact ⟨rfl, rfl⟩
  · exact flushOnce_of_rateLimited app now flushClock
      ((rateLimited_eq_true_iff app now hlo hhi).2 h)
  · exact flushOnce_of_rateLimited app _ flushClock
      ((rateLimited_eq_true_iff app _ hlo hhi).2 (by omega))
  · exact flushOnce_bucket_of_pass app _ flushClock
      ((rateLimited_eq_false_iff app _ hlo hhi).2 (by omega))

/-- C2, witness: the app last flushed at 100, attempted at 170. -/
theorem flushOnce_rate_limit_witness :
    (-2 ^ 63 ≤ sampleApp.Bucket.LastFlushedAt ∧ sampleApp.Bucket.LastFlushedAt + 60 < 2 ^ 63) ∧
    ((60 ≤ 170 - sampleApp.Bucket.LastFlushedAt →
      (sampleApp.flushOnce 170 171).1.Bucket = (sampleApp.Bucket.Flush 171).2 ∧
      (sampleApp.flushOnce 170 171).2 =
        (sampleApp.sendMetrics 170 (MapReduce (sampleApp.Bucket.Flush 171).1 mathMax)).2 ++
          errorLog
            (sampleApp.sendMetrics 170 (MapReduce (sampleApp.Bucket.Flush 171).1 mathMax)).1) ∧
    (170 - sampleApp.Bucket.LastFlushedAt < 60 → sampleApp.flushOnce 170 171 = (sampleApp, [])) ∧
    sampleApp.flushOnce (sampleApp.Bucket.LastFlushedAt + 10) 171 = (sampleApp, []) ∧
    (sampleApp.flushOnce (sampleApp.Bucket.LastFlushedAt + 70) 171).1.Bucket =
      { values := [], lastFlushedAt := 171 }) :=
  ⟨⟨by decide, by decide⟩, flushOnce_rate_limit sampleApp 170 171 (by decide) (by decide)⟩

/-- C1, as stated, fails: one second after the last flush, with a sample in the bucket, the
flush attempt that `App.flush` makes on cancellation returns without flushing the bucket
and without posting anything. -/
theorem shutdown_flush_is_skipped_one_second_after_flush :
    sampleApp.Bucket.values = [("x", [5])] ∧
    101 - sampleApp.Bucket.LastFlushedAt = 1 ∧
    (sampleApp.flush [FlushSignal.done 101 101]).isReturned = true ∧
    (sampleApp.flush [FlushSignal.done 101 101]).state.Bucket = sampleApp.Bucket ∧
    (sampleApp.flush [FlushSignal.done 101 101]).trace = [] := by
  decide

/-- C1 (amended): the flush attempt that `App.flush` makes on cancellation is the
rate-limited `flushOnce`: when `now - lastFlushedAt >= 60` it flushes the bucket and posts
the reduced samples of the window, when `now - lastFlushedAt < 60` it changes nothing and
posts nothing; in both cases the loop then returns, whatever signals follow. -/
theorem flush_on_done_is_rate_limited (app : App) (now flushClock : Int)
    (rest : List FlushSignal)
    (hlo : -2 ^ 63 ≤ app.Bucket.LastFlushedAt)
    (hhi : app.Bucket.LastFlushedAt + 60 < 2 ^ 63) :
    (60 ≤ now - app.Bucket.LastFlushedAt →
      app.flush (FlushSignal.done now flushClock :: rest) =
        Outcome.returned { app with Bucket := (app.Bucket.Flush flushClock).2 }
          ((app.sendMetrics now (MapReduce (app.Bucket.Flush flushClock).1 mathMax)).2 ++
            errorLog
              (app.sendMetrics now (MapReduce (app.Bucket.Flush flushClock).1 mathMax)).1)) ∧
    (now - app.Bucket.LastFlushedAt < 60 →
      app.flush (FlushSignal.done now flushClock :: rest) = Outcome.returned app []) := by
  refine ⟨fun h => ?_, fun h => ?_⟩
  · have hp := (rateLimited_eq_false_iff app now hlo hhi).2 h
    simp only [App.flush, flushOnce_of_pass app now flushClock hp, ValuesBucket.Flush]
  · have hp := (rateLimited_eq_true_iff app now hlo hhi).2 h
    simp only [App.flush, flushOnce_of_rateLimited app now flushClock hp]

/-- C1 (amended), witness: the app last flushed at 100, cancelled at 101. -/
theorem flush_on_done_is_rate_limited_witness :
    (-2 ^ 63 ≤ sampleApp.Bucket.LastFlushedAt ∧ sampleApp.Bucket.LastFlushedAt + 60 < 2 ^ 63) ∧
    ((60 ≤ 101 - sampleApp.Bucket.LastFlushedAt →
      sampleApp.flush (FlushSignal.done 101 102 :: []) =
        Outcome.returned { sampleApp with Bucket := (sampleApp.Bucket.Flush 102).2 }
          ((sampleApp.sendMetrics 101 (MapReduce (sampleApp.Bucket.Flush 102).1 mathMax)).2 ++
            errorLog
              (sampleApp.sendMetrics 101
                (MapReduce (sampleApp.Bucket.Flush 102).1 mathMax)).1)) ∧
    (101 - sampleApp.Bucket.LastFlushedAt < 60 →
      sampleApp.flush (FlushSignal.done 101 102 :: []) = Outcome.returned sampleApp [])) :=
  ⟨⟨by decide, by decide⟩,
    flush_on_done_is_rate_limited sampleApp 101 102 [] (by decide) (by decide)⟩

/-- C3: when the rate-limit check passes, `flushOnce` makes at most one backend post; its
trace holds nothing but that post and the log of its error, so the call returns normally;
a failed post is logged once and not repeated; the bucket it leaves is the flushed one
(empty, window advanced to the flush time) whatever the backend answers; and the snapshot
of any later flush is the one an empty bucket would give after the same later inserts, so
no sample of the failed window is in it. -/
theorem flushOnce_post_failure_not_fatal_not_retried (app : App) (now flushClock : Int)
    (hpass : app.rateLimited now = false) :
    ((app.flushOnce now flushClock).2.filter Effect.isPost).length ≤ 1 ∧
    (∀ e ∈ (app.flushOnce now flushClock).2,
      e.isPost = true ∨ ∃ msg, e = Effect.logError msg) ∧
    (∀ err, (app.sendMetrics now (MapReduce app.Bucket.values mathMax)).1 = some err →
      ∃ records, (app.flushOnce now flushClock).2 =
        [Effect.postHostMetricValues records, Effect.logError err]) ∧
    (app.flushOnce now flushClock).1.Bucket = (app.Bucket.Flush flushClock).2 ∧
    (∀ client : MackerelClient,
      ({ app with MackerelClient := client }.flushOnce now flushClock).1.Bucket =
        { values := [], lastFlushedAt := flushClock }) ∧
    (∀ (later : List Values) (t : Int),
      (((app.flushOnce now flushClock).1.Bucket.insertAll later).Flush t).1 =
        (((NewValuesBucket flushClock).insertAll later).Flush t).1) := by
  have hb := flushOnce_bucket_of_pass app now flushClock hpass
  have hf := flushOnce_of_pass app now flushClock hpass
  refine ⟨?_, ?_, ?_, hb, fun client => ?_, fun later t => ?_⟩
  · rw [hf]
    simp only [App.sendMetrics]
    split
    · simp [errorLog]
    · cases app.MackerelClient.PostHostMetricValues _ <;> simp [errorLog, Effect.isPost]
  · rw [hf]
    simp only [App.sendMetrics]
    split
    · simp [errorLog]
    · cases app.MackerelClient.PostHostMetricValues _ <;> simp [errorLog, Effect.isPost]
  · intro err herr
    rw [hf]
    simp only [App.sendMetrics] at herr ⊢
    split at herr
    · simp at herr
    · rename_i hlen
      simp only [hlen, if_false]
      simp only at herr
      rw [herr]
      exact ⟨_, rfl⟩
  · exact flushOnce_bucket_of_pass { app with MackerelClient := client } now flushClock hpass
  · rw [hb]
    rfl

/-- C3, witness: a window of one sample, flushed 70 seconds after the last flush, in front
of a backend whose posts fail. -/
theorem flushOnce_post_failure_not_fatal_not_retried_witness :
    failingApp.rateLimited 170 = false ∧
    (failingApp.flushOnce 170 171).2 =
      [Effect.postHostMetricValues [{ hostID := "h1", name := "x", time := 170, value := 5 }],
        Effect.logError "post failed"] ∧
    (failingApp.flushOnce 170 171).1.Bucket = (failingApp.Bucket.Flush 171).2 ∧
    ((((failingApp.flushOnce 170 171).1.Bucket.insertAll [[("y", 1)]]).Flush 240).1 =
      [("y", [1])]) :=
  ⟨by decide, by decide,
    (flushOnce_post_failure_not_fatal_not_retried failingApp 170 171 (by decide)).2.2.2.1,
    by decide⟩

/-- C4: `sendMetrics` with an empty mapping makes no backend call and returns no error,
for every host ID and timestamp; and a flush attempt on a bucket that had no insert since
its last flush (or since its creation) has an empty snapshot, an empty reducer output and
makes no backend call at all, whether or not the rate limiter lets it through. -/
theorem no_post_on_empty_window (app : App) (b : ValuesBucket) (t now flushClock : Int) :
    app.sendMetrics now [] = (none, []) ∧
    ((b.Flush t).2.Flush flushClock).1 = [] ∧
    MapReduce ((b.Flush t).2.Flush flushClock).1 mathMax = [] ∧
    ({ app with Bucket := (b.Flush t).2 }.flushOnce now flushClock).2 = [] ∧
    ({ app with Bucket := NewValuesBucket t }.flushOnce now flushClock).2 = [] := by
  refine ⟨rfl, rfl, rfl, ?_, ?_⟩
  · cases h : ({ app with Bucket := (b.Flush t).2 } : App).rateLimited now
    · rw [flushOnce_of_pass _ now flushClock h]
      rfl
    · rw [flushOnce_of_rateLimited _ now flushClock h]
  · cases h : ({ app with Bucket := NewValuesBucket t } : App).rateLimited now
    · rw [flushOnce_of_pass _ now flushClock h]
      rfl
    · rw [flushOnce_of_rateLimited _ now flushClock h]

/-- C5: for a non-empty mapping with distinct metric names, `sendMetrics` makes exactly
one post and returns what that post returned; the posted list has one record per metric
name of the mapping, none missing and none twice, and each record carries the app's host
ID, the timestamp `now` and the value the mapping gives its name. -/
theorem sendMetrics_posts_one_record_per_name (app : App) (now : Int) (values : Values)
    (hne : values ≠ []) (hkeys : (values.map Prod.fst).Nodup) :
    ∃ records : List HostMetricValue,
      app.sendMetrics now values =
        (app.MackerelClient.PostHostMetricValues records,
          [Effect.postHostMetricValues records]) ∧
      records.length = values.length ∧
      (records.map HostMetricValue.name).Nodup ∧
      (∀ name, name ∈ records.map HostMetricValue.name ↔ name ∈ values.map Prod.fst) ∧
      (∀ kv ∈ values, ∃ r ∈ records, r.name = kv.1 ∧ r.value = kv.2) ∧
      (∀ r ∈ records, r.hostID = app.hostID ∧ r.time = now ∧ (r.name, r.value) ∈ values) := by
  have hlen : ¬ values.length = 0 := by
    intro h
    exact hne (List.length_eq_zero.mp h)
  have hnames : (values.map (fun kv : String × ℚ =>
      ({ hostID := app.hostID, name := kv.1, time := now, value := kv.2 } :
        HostMetricValue))).map HostMetricValue.name = values.map Prod.fst := by
    rw [List.map_map]
    rfl
  refine ⟨values.map (fun kv =>
    { hostID := app.hostID, name := kv.1, time := now, value := kv.2 }), ?_, ?_, ?_, ?_, ?_, ?_⟩
  · simp only [App.sendMetrics, hlen, if_false]
  · simp
  · rw [hnames]
    exact hkeys
  · intro name
    rw [hnames]
  · intro kv hkv
    exact ⟨_, List.mem_map.mpr ⟨kv, hkv, rfl⟩, rfl, rfl⟩
  · intro r hr
    obtain ⟨kv, hkv, rfl⟩ := List.mem_map.mp hr
    exact ⟨rfl, rfl, hkv⟩

/-- C5, witness: two metrics posted for host `h1` at time 60. -/
theorem sendMetrics_posts_one_record_per_name_witness :
    ∃ records : List HostMetricValue,
      sampleApp.sendMetrics 60 [("cpu", 20), ("mem", 3)] =
        (sampleApp.MackerelClient.PostHostMetricValues records,
          [Effect.postHostMetricValues records]) ∧
      records.length = [("cpu", (20 : ℚ)), ("mem", (3 : ℚ))].length ∧
      (records.map HostMetricValue.name).Nodup ∧
      (∀ name, name ∈ records.map HostMetricValue.name ↔
        name ∈ [("cpu", (20 : ℚ)), ("mem", (3 : ℚ))].map Prod.fst) ∧
      (∀ kv ∈ [("cpu", (20 : ℚ)), ("mem", (3 : ℚ))],
        ∃ r ∈ records, r.name = kv.1 ∧ r.value = kv.2) ∧
      (∀ r ∈ records, r.hostID = sampleApp.hostID ∧ r.time = 60 ∧
        (r.name, r.value) ∈ [("cpu", (20 : ℚ)), ("mem", (3 : ℚ))]) :=
  sendMetrics_posts_one_record_per_name sampleApp 60 [("cpu", 20), ("mem", 3)]
    (by decide) (by decide)

/-! ## Maximum-value reduction -/

/-- C6: when the rate-limit check passes on a bucket with distinct metric names, every
record `flushOnce` posts carries the app's host ID, the timestamp `now` and, as its value,
the maximum of the samples accumulated for its name (a sample of that name that no sample
of that name exceeds); every name with a sample gets a record and no name gets two; a post
is made as soon as some name has a sample; and reordering the samples of each name changes
neither the reducer's output nor what is posted. The samples 3, 7, 2 of `x` yield 7, and
cpu = 10 then cpu = 20 flushed at time 60 for host `h1` yield the single record
(h1, cpu, 60, 20), leaving the bucket empty. -/
theorem flushOnce_posts_maximum (app : App) (now flushClock : Int)
    (hpass : app.rateLimited now = false)
    (hkeys : (app.Bucket.values.map Prod.fst).Nodup) :
    (∀ records, Effect.postHostMetricValues records ∈ (app.flushOnce now flushClock).2 →
      (records.map HostMetricValue.name).Nodup ∧
      (∀ r ∈ records, r.hostID = app.hostID ∧ r.time = now ∧
        ∃ samples, (r.name, samples) ∈ app.Bucket.values ∧
          r.value ∈ samples ∧ ∀ s ∈ samples, s ≤ r.value) ∧
      (∀ name samples, (name, samples) ∈ app.Bucket.values → samples ≠ [] →
        ∃ r ∈ records, r.name = name)) ∧
    ((∃ name samples, (name, samples) ∈ app.Bucket.values ∧ samples ≠ []) →
      ∃ records, Effect.postHostMetricValues records ∈ (app.flushOnce now flushClock).2) ∧
    (∀ xs ys : List ℚ, xs.Perm ys → Reduce mathMax xs = Reduce mathMax ys) ∧
    (∀ values, SameUpToSampleOrder app.Bucket.values values →
      ({ app with Bucket := { app.Bucket with values := values } }.flushOnce now flushClock).2 =
        (app.flushOnce now flushClock).2) ∧
    Reduce mathMax [3, 7, 2] = some 7 ∧
    (peakApp.flushOnce 60 60).2 =
      [Effect.postHostMetricValues [{ hostID := "h1", name := "x", time := 60, value := 7 }]] ∧
    (cpuApp.flushOnce 60 60).2 =
      [Effect.postHostMetricValues [{ hostID := "h1", name := "cpu", time := 60, value := 20 }]] ∧
    (cpuApp.flushOnce 60 60).1.Bucket.values = [] := by
  refine ⟨fun records hrec => ?_, ?_, Reduce_mathMax_perm, fun values hsame => ?_,
    by decide, by decide, by decide, by decide⟩
  · have hrecords := post_mem_flushOnce app now flushClock hpass records hrec
    subst hrecords
    refine ⟨?_, ?_, ?_⟩
    · rw [List.map_map]
      exact List.Nodup.sublist (MapReduce_keys_sublist app.Bucket.values mathMax) hkeys
    · intro r hr
      obtain ⟨kv, hkv, rfl⟩ := List.mem_map.mp hr
      obtain ⟨samples, hmem, hred⟩ := (mem_MapReduce _ _ kv.1 kv.2).mp hkv
      exact ⟨rfl, rfl, samples, hmem, Reduce_mathMax_spec samples kv.2 hred⟩
    · intro name samples hmem hne
      obtain ⟨v, hv⟩ := Reduce_isSome_of_ne_nil mathMax samples hne
      have hin : (name, v) ∈ MapReduce app.Bucket.values mathMax :=
        (mem_MapReduce _ _ name v).mpr ⟨samples, hmem, hv⟩
      exact ⟨_, List.mem_map.mpr ⟨(name, v), hin, rfl⟩, rfl⟩
  · rintro ⟨name, samples, hmem, hne⟩
    obtain ⟨v, hv⟩ := Reduce_isSome_of_ne_nil mathMax samples hne
    have hin : (name, v) ∈ MapReduce app.Bucket.values mathMax :=
      (mem_MapReduce _ _ name v).mpr ⟨samples, hmem, hv⟩
    have hlen : ¬ (MapReduce app.Bucket.values mathMax).length = 0 := by
      intro h0
      rw [List.length_eq_zero.mp h0] at hin
      cases hin
    rw [flushOnce_of_pass app now flushClock hpass]
    refine ⟨(MapReduce app.Bucket.values mathMax).map (fun kv =>
      { hostID := app.hostID, name := kv.1, time := now, value := kv.2 }),
      List.mem_append_left _ ?_⟩
    simp only [App.sendMetrics, hlen, if_false]
    exact List.mem_singleton.mpr rfl
  · have hp : ({ app with Bucket := { app.Bucket with values := values } } : App).rateLimited now
        = false := hpass
    rw [flushOnce_of_pass _ now flushClock hp, flushOnce_of_pass app now flushClock hpass]
    have hm : MapReduce values mathMax = MapReduce app.Bucket.values mathMax :=
      (MapReduce_mathMax_sampleOrder _ _ hsame).symm
    have hs := sendMetrics_congr app
      { app with Bucket := { app.Bucket with values := values } } now
      (MapReduce app.Bucket.values mathMax) rfl rfl
    simp only [hm, hs]

/-- C6, witness: the bucket of the end-to-end scenario, flushed at time 60. -/
theorem flushOnce_posts_maximum_witness :
    cpuApp.rateLimited 60 = false ∧ (cpuApp.Bucket.values.map Prod.fst).Nodup ∧
    (∀ records, Effect.postHostMetricValues records ∈ (cpuApp.flushOnce 60 60).2 →
      (records.map HostMetricValue.name).Nodup ∧
      (∀ r ∈ records, r.hostID = cpuApp.hostID ∧ r.time = 60 ∧
        ∃ samples, (r.name, samples) ∈ cpuApp.Bucket.values ∧
          r.value ∈ samples ∧ ∀ s ∈ samples, s ≤ r.value) ∧
      (∀ name samples, (name, samples) ∈ cpuApp.Bucket.values → samples ≠ [] →
        ∃ r ∈ records, r.name = name)) :=
  ⟨by decide, by decide, (flushOnce_posts_maximum cpuApp 60 60 (by decide) (by decide)).1⟩

/-! ## The lifecycle loop -/

/-- C7: let the first SHUTDOWN event of the results of `Next()` come after the results
`pre` (so at position `pre.length`), whatever follows it. Then `loop` returns; it has
called `Next()` exactly `pre.length + 1` times; the app it leaves and the posts and error
logs in its trace are those of one `flushOnce` for each INVOKE event of `pre`, in order,
and of nothing else; it has logged one warning for each event of another type; and on the
results `pre` alone, errors and unknown events included, it has not returned but waits
for the next result. -/
theorem loop_returns_at_first_shutdown (app : App) (pre post : List NextStep) (s : NextStep)
    (hs : s.result = NextResult.event "SHUTDOWN")
    (hpre : ∀ p ∈ pre, p.result ≠ NextResult.event "SHUTDOWN") :
    (∃ trace,
      app.loop (pre ++ s :: post) =
        Outcome.returned (flushAttempts (pre.filter (fun p => p.isEvent "INVOKE")) app).1 trace ∧
      trace.filter Effect.isFlushEffect =
        (flushAttempts (pre.filter (fun p => p.isEvent "INVOKE")) app).2 ∧
      trace.count Effect.next = pre.length + 1 ∧
      trace.count (Effect.logWarning "Unknown event type") =
        (pre.filter NextStep.isUnknownEvent).length) ∧
    (app.loop pre).isReturned = false :=
  ⟨loop_until_shutdown pre post s hs hpre app, loop_waits_without_shutdown pre hpre app⟩

/-- C7, witness: an error, an INVOKE and an unknown event before the SHUTDOWN, and an
INVOKE after it: four calls of `Next()`, one flush attempt, one warning. -/
theorem loop_returns_at_first_shutdown_witness :
    (sampleSteps.take 3 ++
        { result := NextResult.event "SHUTDOWN", now := 190, flushClock := 190 } ::
          sampleSteps.drop 4 = sampleSteps) ∧
    (sampleApp.loop sampleSteps).isReturned = true ∧
    (sampleApp.loop sampleSteps).trace =
      [Effect.next, Effect.next,
        Effect.postHostMetricValues [{ hostID := "h1", name := "x", time := 170, value := 5 }],
        Effect.next, Effect.logWarning "Unknown event type", Effect.next] ∧
    (sampleApp.loop (sampleSteps.take 3)).isReturned = false :=
  ⟨by decide, by decide, by decide,
    (loop_returns_at_first_shutdown sampleApp (sampleSteps.take 3) (sampleSteps.drop 4)
      { result := NextResult.event "SHUTDOWN", now := 190, flushClock := 190 }
      rfl (by decide)).2⟩

/-! ## Start-up -/

/-- C8, as stated, fails: when the registration with the lifecycle event source fails,
`Run` ends fatally at once and no init-error is reported. -/
theorem register_failure_reports_no_init_error :
    (sampleApp.Run (some "connection refused") sampleEnv sampleSteps).trace =
      [Effect.register, Effect.logFatal "Failed to register"] ∧
    Effect.initError ∉
      (sampleApp.Run (some "connection refused") sampleEnv sampleSteps).trace := by
  decide

/-- C8 (amended): a failure of the registration makes `Run` end fatally at once, without a
report to the lifecycle event source; a failure of `init` (declaration of the graph
definitions, account lookup, host lookup, duplicate host identity, host creation) makes
`Run` report an init-error and then end fatally; in both cases `Run` ends and neither the
sampling loop nor the flush loop nor the lifecycle loop is started. Without such a failure
the two loops are started, with intervals of 1 and 60 seconds. -/
theorem Run_start_up_failure_is_fatal (app : App) (env : InitEnv) (steps : List NextStep) :
    (∀ err, app.Run (some err) env steps =
      Outcome.returned app [Effect.register, Effect.logFatal "Failed to register"]) ∧
    (initFails app env = true →
      (∃ err, (app.init env).2.1 = some err) ∧
      Effect.initError ∉ (app.init env).2.2 ∧
      app.Run none env steps =
        Outcome.returned (app.init env).1
          ([Effect.register] ++ (app.init env).2.2 ++
            [Effect.initError, Effect.logFatal "Failed to initialize"])) ∧
    (∀ registerErr, registerErr.isSome = true ∨ initFails app env = true →
      (app.Run registerErr env steps).isReturned = true ∧
      ∀ e ∈ (app.Run registerErr env steps).trace, e.startsRunning = false) ∧
    (initFails app env = false →
      ∃ rest, (app.Run none env steps).trace =
        [Effect.register] ++ (app.init env).2.2 ++
          Effect.goCollectMetrics 1 :: Effect.goFlush 60 :: rest) := by
  have hfail : initFails app env = true → ∃ err, (app.init env).2.1 = some err := by
    intro h
    rw [← init_err_isSome app env] at h
    exact Option.isSome_iff_exists.mp h
  have hnotrun := init_trace_not_running app env
  refine ⟨fun err => rfl, fun h => ?_, fun registerErr h => ?_, fun h => ?_⟩
  · obtain ⟨err, herr⟩ := hfail h
    exact ⟨⟨err, herr⟩, fun hmem => (hnotrun _ hmem).2 rfl, Run_of_init_error app env steps err herr⟩
  · cases registerErr with
    | some err =>
      refine ⟨rfl, fun e he => ?_⟩
      have he1 : e ∈ [Effect.register, Effect.logFatal "Failed to register"] := he
      simp only [List.mem_cons, List.mem_singleton, List.not_mem_nil, or_false] at he1
      rcases he1 with rfl | rfl <;> rfl
    | none =>
      have hf : initFails app env = true := by
        rcases h with h | h
        · cases h
        · exact h
      obtain ⟨err, herr⟩ := hfail hf
      rw [Run_of_init_error app env steps err herr]
      refine ⟨rfl, fun e he => ?_⟩
      simp only [Outcome.trace, List.mem_append, List.mem_cons, List.mem_singleton,
        List.not_mem_nil, or_false] at he
      rcases he with (rfl | he) | rfl | rfl
      · rfl
      · exact (hnotrun e he).1
      · rfl
      · rfl
  · have hnone : (app.init env).2.1 = none := by
      rw [← init_err_isSome app env] at h
      exact Option.not_isSome_iff_eq_none.mp (by simp [h])
    exact Run_of_init_ok app env steps hnone

/-- C8 (amended), witness: the host lookup finds two hosts. -/
theorem Run_start_up_failure_is_fatal_witness :
    initFails (freshApp duplicateClient) sampleEnv = true ∧
    ((freshApp duplicateClient).Run none sampleEnv sampleSteps).trace =
      [Effect.register,
        Effect.createGraphDefs sampleEnv.graphDefs,
        Effect.getCallerIdentity,
        Effect.findHosts
          { customIdentifier := "arn:aws:lambda:us-east-1:123456789012:function:fn"
            statuses := ["working", "standby", "maintenance", "poweroff"] },
        Effect.initError,
        Effect.logFatal "Failed to initialize"] ∧
    ((freshApp duplicateClient).Run none sampleEnv sampleSteps).isReturned = true ∧
    (∀ e ∈ ((freshApp duplicateClient).Run none sampleEnv sampleSteps).trace,
      e.startsRunning = false) :=
  ⟨by decide, by decide,
    ((Run_start_up_failure_is_fatal (freshApp duplicateClient) sampleEnv sampleSteps).2.2.1
      none (Or.inr (by decide))).1,
    ((Run_start_up_failure_is_fatal (freshApp duplicateClient) sampleEnv sampleSteps).2.2.1
      none (Or.inr (by decide))).2⟩

/-- C9: once the graph definitions are declared and the account is known, `init` looks
hosts up by the identifier `arn:aws:lambda:<region>:<accountID>:function:<functionName>`.
One host found: its ID becomes `hostID` and no host is created. None found: one host is
created with the function name and that same identifier, `hostID` is the ID the creation
returned, and `init` fails exactly when the creation failed. More than one found: `init`
fails, creates no host and leaves the app, `hostID` included, as it was. A failed lookup:
`init` fails with that error, creates no host and leaves the app as it was. -/
theorem init_lookup_or_create (app : App) (env : InitEnv) (accountID : String)
    (hdefs : app.MackerelClient.CreateGraphDefs env.graphDefs = none)
    (hacc : env.accountID = Except.ok accountID) :
    (env.findParam accountID).customIdentifier =
      "arn:aws:lambda:" ++ env.region ++ ":" ++ accountID ++ ":function:" ++ env.functionName ∧
    (env.createParam accountID).customIdentifier = (env.findParam accountID).customIdentifier ∧
    (∀ p, Effect.createHost p ∉ env.lookupTrace accountID) ∧
    Effect.findHosts (env.findParam accountID) ∈ (app.init env).2.2 ∧
    (∀ h, app.MackerelClient.FindHosts (env.findParam accountID) = ([h], none) →
      app.init env = ({ app with hostID := h.id }, none, env.lookupTrace accountID)) ∧
    (∀ id err, app.MackerelClient.FindHosts (env.findParam accountID) = ([], none) →
      app.MackerelClient.CreateHost (env.createParam accountID) = (id, err) →
      app.init env = ({ app with hostID := id }, err,
        env.lookupTrace accountID ++ [Effect.createHost (env.createParam accountID)])) ∧
    (∀ hosts, app.MackerelClient.FindHosts (env.findParam accountID) = (hosts, none) →
      hosts.length > 1 →
      app.init env = (app, some "Custom identifier duplicated", env.lookupTrace accountID)) ∧
    (∀ hosts err, app.MackerelClient.FindHosts (env.findParam accountID) = (hosts, some err) →
      app.init env = (app, some err, env.lookupTrace accountID)) := by
  have hinit := init_of_account app env accountID hdefs hacc
  refine ⟨rfl, rfl, fun p hp => ?_, ?_, fun h hfound => ?_, fun id err hfound hcreate => ?_,
    fun hosts hfound hlen => ?_, fun hosts err hfound => ?_⟩
  · simp [InitEnv.lookupTrace] at hp
  · rw [hinit]
    cases h2 : (app.MackerelClient.FindHosts (env.findParam accountID)).2 with
    | some e => simp [InitEnv.lookupTrace]
    | none =>
      cases h1 : (app.MackerelClient.FindHosts (env.findParam accountID)).1 with
      | nil => simp [InitEnv.lookupTrace]
      | cons h rest =>
        cases rest with
        | nil => simp [InitEnv.lookupTrace]
        | cons h' rest' => simp [InitEnv.lookupTrace]
  · rw [hinit, hfound]
  · rw [hinit, hfound, hcreate]
  · rw [hinit, hfound]
    cases hosts with
    | nil => simp at hlen
    | cons h rest =>
      cases rest with
      | nil => simp at hlen
      | cons h' rest' => rfl
  · rw [hinit, hfound]

/-- C9, witness: the lookup finds the one host `h7`. -/
theorem init_lookup_or_create_witness :
    (freshApp knownHostClient).MackerelClient.CreateGraphDefs sampleEnv.graphDefs = none ∧
    sampleEnv.accountID = Except.ok "123456789012" ∧
    (sampleEnv.findParam "123456789012").customIdentifier =
      "arn:aws:lambda:us-east-1:123456789012:function:fn" ∧
    ((freshApp knownHostClient).init sampleEnv).1.hostID = "h7" ∧
    ((freshApp knownHostClient).init sampleEnv).2.1 = none ∧
    ((freshApp duplicateClient).init sampleEnv).1.hostID = "" ∧
    ((freshApp duplicateClient).init sampleEnv).2.1 = some "Custom identifier duplicated" ∧
    ((freshApp okClient).init sampleEnv).1.hostID = "h1" ∧
    (freshApp knownHostClient).init sampleEnv =
      ({ freshApp knownHostClient with hostID := "h7" }, none,
        sampleEnv.lookupTrace "123456789012") :=
  ⟨rfl, rfl, by decide, by decide, by decide, by decide, by decide, by decide,
    (init_lookup_or_create (freshApp knownHostClient) sampleEnv "123456789012" rfl rfl).2.2.2.2.1
      { id := "h7" } rfl⟩

/-! ## The load-average generator -/

/-- C10: when the sample of the operating system succeeds, `Generate` returns no error and
a mapping of exactly three distinct keys, mapped to the sampled load averages over 1, 5 and
15 minutes; these keys are the metric names `LoadavgGraphDefs` declares, and each starts
with the name of the graph followed by a dot. When the sample fails, `Generate` returns
that error and no mapping. -/
theorem loadavg_generator_agrees_with_graph_defs (stats : LoadavgStats) (err : String) :
    (∃ m : Values,
      LoadavgGenerator.Generate (Except.ok stats) = (some m, none) ∧
      m.length = 3 ∧
      (m.map Prod.fst).Nodup ∧
      (∀ v, ("custom.aws.lambda.extensions.loadavg.loadavg1", v) ∈ m ↔ v = stats.Loadavg1) ∧
      (∀ v, ("custom.aws.lambda.extensions.loadavg.loadavg5", v) ∈ m ↔ v = stats.Loadavg5) ∧
      (∀ v, ("custom.aws.lambda.extensions.loadavg.loadavg15", v) ∈ m ↔ v = stats.Loadavg15) ∧
      (∀ name, name ∈ m.map Prod.fst ↔
        name ∈ LoadavgGraphDefs.metrics.map GraphDefsMetric.name) ∧
      (∀ name ∈ m.map Prod.fst, startsWith (LoadavgGraphDefs.name ++ ".") name = true)) ∧
    (LoadavgGraphDefs.metrics.map GraphDefsMetric.name).Nodup ∧
    LoadavgGenerator.Generate (Except.error err) = (none, some err) := by
  have hkeys : ∀ a b c : ℚ,
      List.map Prod.fst
        [("custom.aws.lambda.extensions.loadavg.loadavg1", a),
          ("custom.aws.lambda.extensions.loadavg.loadavg5", b),
          ("custom.aws.lambda.extensions.loadavg.loadavg15", c)] =
      LoadavgGraphDefs.metrics.map GraphDefsMetric.name := fun _ _ _ => rfl
  have hnodup : (LoadavgGraphDefs.metrics.map GraphDefsMetric.name).Nodup := by decide
  have hstart : ∀ name ∈ LoadavgGraphDefs.metrics.map GraphDefsMetric.name,
      startsWith (LoadavgGraphDefs.name ++ ".") name = true := by decide
  refine ⟨⟨_, rfl, rfl, ?_, ?_, ?_, ?_, ?_, ?_⟩, hnodup, rfl⟩
  · rw [hkeys]
    exact hnodup
  · intro v
    simp
  · intro v
    simp
  · intro v
    simp
  · intro name
    rw [hkeys]
  · rw [hkeys]
    exact hstart

end MackerelLambdaAgent
